import Mathlib

set_option linter.unusedVariables false

/-!
Shallow embedding of `src/hbtad.c`: the frame dissector / statistics
aggregator (`got_packet`), the variance-normalized distance (`n_e_d`,
`std_dev`) and the k-means engine (`kmeans`), together with theorems
settling the specification claims about them.

Modelling conventions:
* A captured frame is a byte memory `Pkt : ℕ → ℕ` (byte value at each
  offset).  C reads through struct overlays are modelled by explicit
  offset arithmetic; multi-byte fields are read in network byte order
  (the order `ntohs` yields; for the fields the program reads without
  `ntohs` the host byte order of the struct overlay is a platform
  memory-layout issue outside this embedding and irrelevant to the
  claims below).
* The global `int` histogram arrays become a `Hists` record of total
  functions; `packet_sizes` is indexed by `ℤ` because the C code indexes
  it with a signed `int` that can be negative.
* C `float`/`double` arithmetic is idealized as exact real arithmetic;
  an IEEE division by zero produces a non-finite value (NaN/∞), which is
  modelled by `Option ℝ` with `none` for "non-finite", propagated
  through subsequent additions as NaN is.
-/

namespace Hbtad

/-! ## Constants (hbtad.c lines 133-136, and `<netinet/in.h>` / `<limits.h>`) -/

/-- hbtad.c line 133: `#define SNAP_LEN 1518`. -/
def SNAP_LEN : ℕ := 1518

/-- hbtad.c line 136: `#define SIZE_ETHERNET 14`. -/
def SIZE_ETHERNET : ℕ := 14

/-- `IPPROTO_TCP` from `<netinet/in.h>`. -/
def IPPROTO_TCP : ℕ := 6

/-- `IPPROTO_UDP` from `<netinet/in.h>`. -/
def IPPROTO_UDP : ℕ := 17

/-- `IPPROTO_ICMP` from `<netinet/in.h>`. -/
def IPPROTO_ICMP : ℕ := 1

/-- `IPPROTO_IP` from `<netinet/in.h>` (value 0). -/
def IPPROTO_IP : ℕ := 0

/-- `INT_MAX` from `<limits.h>`, used to seed `min_dist` in `kmeans`. -/
def INT_MAX : ℤ := 2147483647

/-! ## Histogram state (hbtad.c lines 192-207, the global arrays) -/

/-- The five global counter arrays of hbtad.c (lines 192-207):
`src_ip_addrs[256]`, `dst_ip_addrs[256]`, `src_ports[1024]`,
`dst_ports[1024]`, `protocols[4]`, `packet_sizes[SNAP_LEN]`,
`flags[256]`.  Each array is modelled as a total function from its index
type; `packet_sizes` takes a `ℤ` index because the C code indexes it
with a signed `int` expression (`size_payload`) that can be negative. -/
structure Hists where
  src_ip_addrs : ℕ → ℕ
  dst_ip_addrs : ℕ → ℕ
  src_ports : ℕ → ℕ
  dst_ports : ℕ → ℕ
  protocols : ℕ → ℕ
  packet_sizes : ℤ → ℕ
  flags : ℕ → ℕ

/-- `arr[i]++` on one modelled counter array. -/
def bump {α : Type} [DecidableEq α] (f : α → ℕ) (i : α) : α → ℕ :=
  fun j => if j = i then f i + 1 else f j

/-- The all-zero histogram state produced by the initialization loops in
`load` (hbtad.c lines 636-661). -/
def hists0 : Hists :=
  ⟨fun _ => 0, fun _ => 0, fun _ => 0, fun _ => 0, fun _ => 0, fun _ => 0, fun _ => 0⟩

/-! ## Frame memory and header-field reads -/

/-- A captured frame: the byte at each offset of the packet buffer (the
memory `got_packet`'s pointer arithmetic can reach, which is not limited
to the captured length). -/
abbrev Pkt := ℕ → ℕ

/-- `ip->ip_vhl`: byte at `packet + SIZE_ETHERNET` (struct sniff_ip offset 0). -/
def ip_vhl (p : Pkt) : ℕ := p 14

/-- `size_ip = IP_HL(ip)*4` (hbtad.c line 430 with the macro of line 164:
`(ip_vhl & 0x0f) * 4`). -/
def size_ip_of (p : Pkt) : ℕ := (ip_vhl p &&& 0x0f) * 4

/-- `ip->ip_p`: protocol byte, struct sniff_ip offset 9, i.e. packet byte 23. -/
def ip_p_of (p : Pkt) : ℕ := p 23

/-- `ntohs(ip->ip_len)` (hbtad.c line 499): the 16-bit total length at
struct sniff_ip offset 2, read in network byte order. -/
def ip_len_ntohs (p : Pkt) : ℕ := p 16 * 256 + p 17

/-- `ip->ip_src.s_addr`: 32-bit source address field at struct sniff_ip
offset 12 (packet bytes 26-29), modelled in network byte order. -/
def ip_src_addr (p : Pkt) : ℕ :=
  p 26 * 16777216 + p 27 * 65536 + p 28 * 256 + p 29

/-- `ip->ip_dst.s_addr`: 32-bit destination address field at struct
sniff_ip offset 16 (packet bytes 30-33), modelled in network byte order. -/
def ip_dst_addr (p : Pkt) : ℕ :=
  p 30 * 16777216 + p 31 * 65536 + p 32 * 256 + p 33

/-- `(ip->ip_src.s_addr >> 24) & 0xFF` (hbtad.c line 442). -/
def ip_src_top (p : Pkt) : ℕ := (ip_src_addr p >>> 24) &&& 0xff

/-- `(ip->ip_dst.s_addr >> 24) & 0xFF` (hbtad.c line 444). -/
def ip_dst_top (p : Pkt) : ℕ := (ip_dst_addr p >>> 24) &&& 0xff

/-- Offset of the TCP header: `packet + SIZE_ETHERNET + size_ip`
(hbtad.c line 479). -/
def tcp_off (p : Pkt) : ℕ := SIZE_ETHERNET + size_ip_of p

/-- `tcp->th_sport`: 16-bit field at struct sniff_tcp offset 0 (read in
the wire order; the program applies no `ntohs` here, see line 489). -/
def th_sport (p : Pkt) : ℕ := p (tcp_off p) * 256 + p (tcp_off p + 1)

/-- `tcp->th_dport`: 16-bit field at struct sniff_tcp offset 2. -/
def th_dport (p : Pkt) : ℕ := p (tcp_off p + 2) * 256 + p (tcp_off p + 3)

/-- `tcp->th_offx2`: byte at struct sniff_tcp offset 12. -/
def th_offx2 (p : Pkt) : ℕ := p (tcp_off p + 12)

/-- `size_tcp = TH_OFF(tcp)*4` (hbtad.c line 480 with the macro of line
176: `((th_offx2 & 0xf0) >> 4) * 4`). -/
def size_tcp_of (p : Pkt) : ℕ := ((th_offx2 p &&& 0xf0) >>> 4) * 4

/-- `tcp->th_flags`: byte at struct sniff_tcp offset 13. -/
def th_flags (p : Pkt) : ℕ := p (tcp_off p + 13)

/-- `size_payload = ntohs(ip->ip_len) - (size_ip + size_tcp)` (hbtad.c
line 499), a C `int`, hence `ℤ`: it is negative whenever the IP total
length field is smaller than the combined header lengths. -/
def size_payload_of (p : Pkt) : ℤ :=
  (ip_len_ntohs p : ℤ) - ((size_ip_of p : ℤ) + (size_tcp_of p : ℤ))

/-! ## The dissector/aggregator `got_packet` (hbtad.c lines 405-521) -/

/-- hbtad.c line 489-493: `if (tcp->th_sport < 1024) src_ports[tcp->th_sport]++;`. -/
def sport_update (p : Pkt) (h : Hists) : Hists :=
  if th_sport p < 1024 then
    { h with src_ports := bump h.src_ports (th_sport p) }
  else h

/-- hbtad.c line 492-493: `if (tcp->th_dport < 1024) dst_ports[tcp->th_dport]++;`. -/
def dport_update (p : Pkt) (h : Hists) : Hists :=
  if th_dport p < 1024 then
    { h with dst_ports := bump h.dst_ports (th_dport p) }
  else h

/-- hbtad.c lines 499-505: compute `size_payload` and update
`packet_sizes[size_payload]` when
`size_payload + SIZE_ETHERNET + size_ip < SNAP_LEN`; otherwise only the
"PACKET OVERSIZED" diagnostic is printed.  Note that the C guard also
admits negative `size_payload`, in which case `packet_sizes` is indexed
out of bounds; the model records that write at the negative `ℤ` index. -/
def size_update (p : Pkt) (h : Hists) : Hists :=
  if size_payload_of p + (SIZE_ETHERNET : ℤ) + (size_ip_of p : ℤ) < (SNAP_LEN : ℤ) then
    { h with packet_sizes := bump h.packet_sizes (size_payload_of p) }
  else h

/-- hbtad.c lines 479-505: the TCP branch after `protocols[0]++`: check
`size_tcp`, then `flags[tcp->th_flags]++`, the two port updates and the
payload-size update. -/
def tcp_rest (p : Pkt) (h : Hists) : Hists :=
  if size_tcp_of p < 20 then h
  else
    size_update p (dport_update p (sport_update p
      { h with flags := bump h.flags (th_flags p) }))

/-- hbtad.c lines 447-505: `switch(ip->ip_p)`.  TCP bumps `protocols[0]`
and falls through to the TCP processing; UDP/ICMP/IP bump their protocol
slot and `packet_sizes[SIZE_ETHERNET + size_ip]` and return; the default
case bumps only `packet_sizes[SIZE_ETHERNET + size_ip]` (no protocol
slot) and returns. -/
def proto_switch (p : Pkt) (h : Hists) : Hists :=
  if ip_p_of p = IPPROTO_TCP then
    tcp_rest p { h with protocols := bump h.protocols 0 }
  else if ip_p_of p = IPPROTO_UDP then
    { h with protocols := bump h.protocols 1,
             packet_sizes := bump h.packet_sizes ((SIZE_ETHERNET + size_ip_of p : ℕ) : ℤ) }
  else if ip_p_of p = IPPROTO_ICMP then
    { h with protocols := bump h.protocols 2,
             packet_sizes := bump h.packet_sizes ((SIZE_ETHERNET + size_ip_of p : ℕ) : ℤ) }
  else if ip_p_of p = IPPROTO_IP then
    { h with protocols := bump h.protocols 3,
             packet_sizes := bump h.packet_sizes ((SIZE_ETHERNET + size_ip_of p : ℕ) : ℤ) }
  else
    { h with packet_sizes := bump h.packet_sizes ((SIZE_ETHERNET + size_ip_of p : ℕ) : ℤ) }

/-- hbtad.c lines 405-521, `got_packet`, as a state transformer on the
histogram set.  `caplen` is the captured length delivered in the
`pcap_pkthdr` argument; the C function never reads that header, so the
parameter is (faithfully) unused.  Line 430-434: reject if
`size_ip < 20`; lines 442-444: bump the address-octet histograms; then
the protocol switch. -/
def got_packet (caplen : ℕ) (p : Pkt) (h : Hists) : Hists :=
  if size_ip_of p < 20 then h
  else
    proto_switch p
      { h with src_ip_addrs := bump h.src_ip_addrs (ip_src_top p),
               dst_ip_addrs := bump h.dst_ip_addrs (ip_dst_top p) }

/-- Processing a sequence of captured frames: `pcap_loop` invokes
`got_packet` once per frame (hbtad.c line 684). -/
def run (caplen : ℕ) (ps : List Pkt) (h : Hists) : Hists :=
  ps.foldl (fun h p => got_packet caplen p h) h

/-- Sum of the four protocol slots. -/
def protoSum (h : Hists) : ℕ :=
  h.protocols 0 + h.protocols 1 + h.protocols 2 + h.protocols 3

/-- The IP-header-length check of hbtad.c line 431 fails (the frame is
malformed at the IP layer). -/
def ipMalformedB (p : Pkt) : Bool := decide (size_ip_of p < 20)

/-- The protocol byte is one of the four values the `switch` of line 447
tracks in `protocols`. -/
def recognizedB (p : Pkt) : Bool :=
  ip_p_of p == IPPROTO_TCP || ip_p_of p == IPPROTO_UDP ||
    ip_p_of p == IPPROTO_ICMP || ip_p_of p == IPPROTO_IP

/-! ## Concrete frames used as witnesses and counterexamples -/

/-- A frame whose IP header-length field is 3 (< 5): `ip_vhl = 0x43`. -/
def pIpBad : Pkt := fun n => if n = 14 then 0x43 else 0

/-- A TCP frame with a valid IP header (`ip_vhl = 0x45`, so
`size_ip = 20`) but TCP data-offset field 4 (< 5): byte 46 is
`th_offx2 = 0x40`. -/
def pTcpBadOff : Pkt :=
  fun n => if n = 14 then 0x45 else if n = 23 then 6 else if n = 46 then 0x40 else 0

/-- A well-formed TCP frame: `ip_vhl = 0x45`, protocol 6, source port
2048 (bytes 34-35 = 08 00), destination port 80 (bytes 36-37 = 00 50),
`th_offx2 = 0x50` (data offset 5, `size_tcp = 20`).  Its `ip_len` field
is 0, so `size_payload = 0 - (20 + 20) = -40`. -/
def pTcpGood : Pkt :=
  fun n =>
    if n = 14 then 0x45 else if n = 23 then 6 else
    if n = 34 then 8 else if n = 37 then 80 else
    if n = 46 then 0x50 else 0

/-- A well-formed UDP frame (`ip_vhl = 0x45`, protocol 17). -/
def pUdp : Pkt := fun n => if n = 14 then 0x45 else if n = 23 then 17 else 0

/-- A well-formed frame with IP protocol 47 (GRE), which is none of the
four protocols the `switch` of line 447 tracks. -/
def pGre : Pkt := fun n => if n = 14 then 0x45 else if n = 23 then 47 else 0

/-! ## Distance metric (hbtad.c lines 696-712 and 743-760) -/

/-- hbtad.c lines 743-760, `std_dev(float *vals, int n)`: guard `n == 0`,
sum the first `n` entries, take the mean, sum the squared differences,
divide by `n` (population formula) and return the square root.  C
`float`/`double` arithmetic is idealized as exact real arithmetic. -/
noncomputable def std_dev (vals : List ℝ) (n : ℕ) : ℝ :=
  if n = 0 then 0
  else
    let sum := ((List.range n).map (fun i => vals.getD i 0)).sum
    let mean := sum / (n : ℝ)
    let sq_diff_sum := ((List.range n).map (fun i => (vals.getD i 0 - mean) ^ 2)).sum
    let variance := sq_diff_sum / (n : ℝ)
    Real.sqrt variance

/-- IEEE float division: a zero divisor yields a non-finite value
(NaN or ±∞), modelled as `none`. -/
noncomputable def fdiv (a b : ℝ) : Option ℝ :=
  if b = 0 then none else some (a / b)

/-- One iteration of the loop of `n_e_d` (hbtad.c lines 703-709):
`vals = {vec1[i], vec2[i]}`, `sd = std_dev(vals, 2)`, and the term
`sqrt(pow(abs(vec1[i] - vec2[i]), 2) / pow(sd, 2))`.  `sqrt` of a
non-finite value stays non-finite. -/
noncomputable def ned_step (x y : ℤ) : Option ℝ :=
  Option.map Real.sqrt
    (fdiv (((|x - y| : ℤ) : ℝ) ^ 2) ((std_dev [(x : ℝ), (y : ℝ)] 2) ^ 2))

/-- The accumulation loop of `n_e_d`: `d` starts at 0 and each iteration
adds the per-dimension term (`d += sqrt(...)`); a non-finite term makes
the running sum non-finite, as NaN propagates through `+=`. -/
noncomputable def ned_loop (vec1 vec2 : List ℤ) : ℕ → Option ℝ
  | 0 => some 0
  | n + 1 =>
    match ned_loop vec1 vec2 n, ned_step (vec1.getD n 0) (vec2.getD n 0) with
    | some d, some t => some (d + t)
    | _, _ => none

/-- hbtad.c lines 696-712, `n_e_d(int *vec1, int *vec2, int len)`: the
"normalized euclidean distance". -/
noncomputable def n_e_d (vec1 vec2 : List ℤ) (len : ℕ) : Option ℝ :=
  ned_loop vec1 vec2 len

/-- Modelled from the spec (§4.4): the population standard deviation of
the two scalar values `{x, y}` (divisor 2), written from the spec's
words for comparison against the source's `std_dev`. -/
noncomputable def stddev_spec (x y : ℝ) : ℝ :=
  Real.sqrt (((x - (x + y) / 2) ^ 2 + (y - (x + y) / 2) ^ 2) / 2)

/-- Modelled from the spec (§4.4): the per-dimension contribution
`(a[i] - b[i])^2 / stddev^2`. -/
noncomputable def contrib_spec (a b : List ℤ) (i : ℕ) : ℝ :=
  ((a.getD i 0 - b.getD i 0 : ℤ) : ℝ) ^ 2 /
    (stddev_spec ((a.getD i 0 : ℤ) : ℝ) ((b.getD i 0 : ℤ) : ℝ)) ^ 2

/-- Modelled from the spec (§4.4): total distance = square root of the
sum of per-dimension contributions (one final square root over the whole
sum). -/
noncomputable def distance_spec (a b : List ℤ) (len : ℕ) : ℝ :=
  Real.sqrt (((List.range len).map (fun i => contrib_spec a b i)).sum)

/-! ## K-means engine (hbtad.c lines 763-828) -/

/-- hbtad.c lines 796-805, the inner `for (j = 0; j < num_clusters; j++)`
loop over centroids, threading the pair `(min_dist, min_centroid)`:
`dist = d(vecs[i], mean_vecs[j]); if (dist < min_dist) { dist = min_dist;
min_centroid = j; }`.  The assignment `dist = min_dist` is inverted (it
overwrites the loop-local `dist`, which the next iteration recomputes,
instead of lowering `min_dist`), so `min_dist` never changes; the model
reflects exactly that.  `d` abstracts `(int) n_e_d(vecs[i], mean_vecs[j],
vec_len)` (the float-to-int conversion of a possibly-NaN distance is
itself undefined; the theorems below hold for every `d`). -/
def assignInner (d : List ℤ → List ℤ → ℤ) (v : List ℤ) (cents : List (List ℤ))
    (s : ℤ × ℤ) : ℤ × ℤ :=
  (List.range cents.length).foldl
    (fun s j => if d v (cents.getD j []) < s.1 then (s.1, (j : ℤ)) else s) s

/-- hbtad.c lines 794-808, the outer `for (i = 0; i < num_vecs; i++)`
loop: run the inner loop for each vector and record `map[i] =
min_centroid`.  `min_dist` and `min_centroid` are declared outside the
loop, so the pair is carried from one vector to the next (not reset). -/
def assignLoop (d : List ℤ → List ℤ → ℤ) (cents : List (List ℤ)) :
    List (List ℤ) → ℤ × ℤ → List ℤ
  | [], _ => []
  | v :: vs, s =>
    let s2 := assignInner d v cents s
    s2.2 :: assignLoop d cents vs s2

/-- The assignment step of `kmeans` (hbtad.c lines 791-808):
`min_dist = INT_MAX` once, then the nested loops.  `min_centroid` is an
uninitialized `int`, modelled by the parameter `mc0`. -/
def assignMap (d : List ℤ → List ℤ → ℤ) (vecs cents : List (List ℤ)) (mc0 : ℤ) : List ℤ :=
  assignLoop d cents vecs (INT_MAX, mc0)

/-- hbtad.c lines 763-828, `kmeans`: `NULL` (here `none`) when
`num_vecs < num_clusters` (lines 772-776); otherwise the centroids are
seeded from the first `num_clusters` vectors (lines 783-789), the
assignment map is computed (lines 791-808), the centroid-recomputation
loop calls `mean_vec`, which stores its result in freshly `malloc`ed
memory that is immediately leaked (lines 810-825 and 837, no observable
effect on the result) — and line 827 then executes `return NULL;`
unconditionally, discarding `map`. -/
def kmeans (d : List ℤ → List ℤ → ℤ) (vecs : List (List ℤ))
    (num_clusters : ℕ) (mc0 : ℤ) : Option (List ℤ) :=
  if vecs.length < num_clusters then none
  else
    let _map := assignMap d vecs (vecs.take num_clusters) mc0
    none

/-- A concrete distance function standing in for
`(int) n_e_d(...)` in witnesses. -/
def dzero : List ℤ → List ℤ → ℤ := fun _ _ => 0

/-! ## Helper lemmas about the aggregator -/

theorem tcp_rest_protocols (p : Pkt) (h : Hists) :
    (tcp_rest p h).protocols = h.protocols := by
  unfold tcp_rest size_update dport_update sport_update
  split_ifs <;> rfl

theorem protoSum_proto_switch (p : Pkt) (h : Hists) :
    protoSum (proto_switch p h) = protoSum h + (if recognizedB p then 1 else 0) := by
  unfold proto_switch
  by_cases hT : ip_p_of p = IPPROTO_TCP
  · rw [if_pos hT]
    have h1 := tcp_rest_protocols p { h with protocols := bump h.protocols 0 }
    simp [protoSum, h1, bump, recognizedB, hT]
    omega
  · rw [if_neg hT]
    by_cases hU : ip_p_of p = IPPROTO_UDP
    · rw [if_pos hU]
      simp [protoSum, bump, recognizedB, hU, hT]
      omega
    · rw [if_neg hU]
      by_cases hI : ip_p_of p = IPPROTO_ICMP
      · rw [if_pos hI]
        simp [protoSum, bump, recognizedB, hI, hT, hU]
        omega
      · rw [if_neg hI]
        by_cases hP : ip_p_of p = IPPROTO_IP
        · rw [if_pos hP]
          simp [protoSum, bump, recognizedB, hP, hT, hU, hI]
          omega
        · rw [if_neg hP]
          simp [protoSum, bump, recognizedB, hT, hU, hI, hP]

theorem protoSum_got_packet (c : ℕ) (p : Pkt) (h : Hists) :
    protoSum (got_packet c p h) =
      protoSum h + (if !ipMalformedB p && recognizedB p then 1 else 0) := by
  unfold got_packet
  by_cases h1 : size_ip_of p < 20
  · rw [if_pos h1]
    simp [ipMalformedB, h1]
  · rw [if_neg h1]
    rw [protoSum_proto_switch]
    simp [ipMalformedB, h1, protoSum]

/-! ## Claims about the dissector/aggregator -/

/-- C4 (counterexample): a frame with TCP data-offset field 4 (< 5) is
rejected at line 481, yet its processing has already incremented
`protocols[0]` (and the address-octet counters) at lines 442-450 — a
histogram counter does change, contradicting the claim. -/
theorem tcp_badoff_changes_histograms :
    (th_offx2 pTcpBadOff &&& 0xf0) >>> 4 = 4 ∧
    (got_packet 1518 pTcpBadOff hists0).protocols 0 = 1 ∧
    hists0.protocols 0 = 0 := by
  refine ⟨by decide, ?_, rfl⟩
  decide

/-- C4 (amended): a frame whose IP header-length field is < 5 changes no
counter; a frame that reaches the TCP branch but has TCP data-offset
field < 5 has already incremented exactly the source/destination
address-octet counters and `protocols[0]`, and changes nothing else. -/
theorem got_packet_malformed_effects (c : ℕ) (p : Pkt) (h : Hists) :
    (ip_vhl p &&& 0x0f < 5 → got_packet c p h = h) ∧
    (5 ≤ ip_vhl p &&& 0x0f → ip_p_of p = IPPROTO_TCP →
      (th_offx2 p &&& 0xf0) >>> 4 < 5 →
      got_packet c p h =
        { h with src_ip_addrs := bump h.src_ip_addrs (ip_src_top p),
                 dst_ip_addrs := bump h.dst_ip_addrs (ip_dst_top p),
                 protocols := bump h.protocols 0 }) := by
  constructor
  · intro h5
    unfold got_packet
    rw [if_pos (by unfold size_ip_of; omega)]
  · intro h5 hp hoff
    unfold got_packet
    rw [if_neg (by unfold size_ip_of; omega)]
    unfold proto_switch
    rw [if_pos hp]
    unfold tcp_rest
    rw [if_pos (by unfold size_tcp_of; omega)]

/-- C4 (witness for the amended claim): the two conjuncts applied to
concrete malformed frames. -/
theorem got_packet_malformed_effects_witness :
    got_packet 1518 pIpBad hists0 = hists0 ∧
    got_packet 1518 pTcpBadOff hists0 =
      { hists0 with
          src_ip_addrs := bump hists0.src_ip_addrs (ip_src_top pTcpBadOff),
          dst_ip_addrs := bump hists0.dst_ip_addrs (ip_dst_top pTcpBadOff),
          protocols := bump hists0.protocols 0 } :=
  ⟨(got_packet_malformed_effects 1518 pIpBad hists0).1 (by decide),
   (got_packet_malformed_effects 1518 pTcpBadOff hists0).2 (by decide) (by decide) (by decide)⟩

/-- C5 (counterexample): a well-formed frame with IP protocol 47 (GRE)
is processed (its source-octet counter increments) but no `protocols`
slot is incremented — the default case of the `switch` (line 467) skips
the protocol histogram — so the protocol sum stays 0 after one
non-malformed frame. -/
theorem unknown_proto_not_counted :
    ipMalformedB pGre = false ∧
    protoSum (run 1518 [pGre] hists0) = 0 ∧
    (run 1518 [pGre] hists0).src_ip_addrs 0 = 1 := by
  refine ⟨rfl, ?_, ?_⟩ <;> decide

/-- C5 (amended): after processing any sequence of frames, the sum of
the four `protocols` slots equals the number of frames that pass the IP
header-length check and whose protocol byte is one of TCP/UDP/ICMP/IP
(frames with any other protocol value increment no slot; TCP frames
count even if the TCP data-offset check later fails, since `protocols[0]`
is incremented before that check). -/
theorem protocols_sum_counts_recognized (c : ℕ) (ps : List Pkt) (h : Hists) :
    protoSum (run c ps h) =
      protoSum h + ps.countP (fun p => !ipMalformedB p && recognizedB p) := by
  induction ps generalizing h with
  | nil => simp [run]
  | cons p ps ih =>
    have hrun : run c (p :: ps) h = run c ps (got_packet c p h) := rfl
    rw [hrun, ih, protoSum_got_packet, List.countP_cons]
    split <;> omega

/-- C6: for a well-formed TCP frame, `dst_ports[th_dport]` is
incremented iff `th_dport < 1024` and the destination-port histogram is
otherwise unchanged; likewise for the source port. -/
theorem tcp_ports_tracked_iff_lt_1024 (c : ℕ) (p : Pkt) (h : Hists)
    (hip : ¬ size_ip_of p < 20) (hp : ip_p_of p = IPPROTO_TCP)
    (htcp : ¬ size_tcp_of p < 20) :
    (got_packet c p h).dst_ports =
      (if th_dport p < 1024 then bump h.dst_ports (th_dport p) else h.dst_ports) ∧
    (got_packet c p h).src_ports =
      (if th_sport p < 1024 then bump h.src_ports (th_sport p) else h.src_ports) := by
  unfold got_packet
  rw [if_neg hip]
  unfold proto_switch
  rw [if_pos hp]
  unfold tcp_rest
  rw [if_neg htcp]
  unfold size_update dport_update sport_update
  constructor
  · split_ifs <;> rfl
  · split_ifs <;> rfl

/-- C6 (witness): the theorem applied to the concrete TCP frame with
destination port 80 (< 1024, tracked) and source port 2048 (≥ 1024, not
tracked). -/
theorem tcp_ports_witness :
    (got_packet 1518 pTcpGood hists0).dst_ports 80 = 1 ∧
    (got_packet 1518 pTcpGood hists0).src_ports 2048 = 0 := by
  have h := tcp_ports_tracked_iff_lt_1024 1518 pTcpGood hists0
    (by decide) (by decide) (by decide)
  rw [h.1, h.2]
  constructor <;> decide

/-- C7: for the well-formed TCP frame whose IP total-length field is 0,
`size_payload` is −40; the guard of line 502 (`size_payload +
SIZE_ETHERNET + size_ip < SNAP_LEN`) accepts the negative value instead
of flagging it oversized, and `packet_sizes` is written at index −40 —
outside `[0, SNAP_LEN)`. -/
theorem negative_payload_oob_write :
    size_payload_of pTcpGood = -40 ∧
    (got_packet 1518 pTcpGood hists0).packet_sizes (-40) = 1 := by
  constructor <;> decide

/-- C8: `got_packet` never validates anything against the captured
length: its result is independent of `caplen` (the C code never reads
the `pcap_pkthdr` argument), and with `caplen = 14` — only the Ethernet
header captured — a frame is still fully dissected from bytes at
offsets ≥ `caplen` and updates the histograms instead of being reported
malformed. -/
theorem caplen_never_validated :
    (∀ (c1 c2 : ℕ) (p : Pkt) (h : Hists), got_packet c1 p h = got_packet c2 p h) ∧
    (got_packet 14 pUdp hists0).protocols 1 = 1 ∧
    hists0.protocols 1 = 0 := by
  refine ⟨fun _ _ _ _ => rfl, ?_, rfl⟩
  decide

/-! ## Claims about the k-means engine -/

theorem assignInner_fst (d : List ℤ → List ℤ → ℤ) (v : List ℤ)
    (cents : List (List ℤ)) (s : ℤ × ℤ) : (assignInner d v cents s).1 = s.1 := by
  unfold assignInner
  generalize List.range cents.length = l
  induction l generalizing s with
  | nil => rfl
  | cons j l ih =>
    rw [List.foldl_cons, ih]
    split <;> rfl

theorem assignInner_last (d : List ℤ → List ℤ → ℤ) (v : List ℤ)
    (cents : List (List ℤ)) (hd : ∀ u c, d u c < INT_MAX) (mc : ℤ)
    (hk : 0 < cents.length) :
    assignInner d v cents (INT_MAX, mc) = (INT_MAX, (cents.length : ℤ) - 1) := by
  unfold assignInner
  have haux : ∀ (n : ℕ) (mc : ℤ), 0 < n →
      (List.range n).foldl
        (fun s j => if d v (cents.getD j []) < s.1 then (s.1, (j : ℤ)) else s)
        (INT_MAX, mc) = (INT_MAX, (n : ℤ) - 1) := by
    intro n
    induction n with
    | zero => intro mc h; omega
    | succ n ih =>
      intro mc _
      rw [List.range_succ, List.foldl_append]
      by_cases hn : 0 < n
      · rw [ih mc hn]
        rw [List.foldl_cons, List.foldl_nil, if_pos (hd v _)]
        push_cast
        norm_num
      · have hn0 : n = 0 := by omega
        subst hn0
        rw [List.range_zero, List.foldl_nil, List.foldl_cons, List.foldl_nil,
          if_pos (hd v _)]
        norm_num
  exact haux cents.length mc hk

/-- C2: the assignment step never tracks the minimum distance.  The
statement `dist = min_dist` at hbtad.c line 802 is inverted (it
overwrites the loop-local `dist` instead of updating `min_dist`), so
`min_dist` stays at `INT_MAX` forever, the guard `dist < min_dist` holds
at every centroid, and every vector is mapped to the LAST centroid index
`num_clusters - 1` — for every distance function whose values are below
`INT_MAX`, i.e. the recorded cluster is independent of the distances. -/
theorem assignment_ignores_distances (d : List ℤ → List ℤ → ℤ)
    (vecs cents : List (List ℤ)) (mc0 : ℤ) (hk : 0 < cents.length)
    (hd : ∀ u c, d u c < INT_MAX) :
    assignMap d vecs cents mc0 = List.replicate vecs.length ((cents.length : ℤ) - 1) := by
  unfold assignMap
  have haux : ∀ (vs : List (List ℤ)) (mc : ℤ),
      assignLoop d cents vs (INT_MAX, mc) =
        List.replicate vs.length ((cents.length : ℤ) - 1) := by
    intro vs
    induction vs with
    | nil => intro mc; rfl
    | cons v vs ih =>
      intro mc
      unfold assignLoop
      rw [assignInner_last d v cents hd mc hk]
      simp [List.replicate_succ, ih]
  exact haux vecs mc0

/-- C2 (witness): with two vectors `[0]` and `[4]` seeded as the two
centroids, both vectors are assigned to cluster 1 — including vector 0,
which coincides with centroid 0. -/
theorem assignment_ignores_distances_witness :
    assignMap dzero [[0], [4]] [[0], [4]] 0 = [1, 1] := by
  have h := assignment_ignores_distances dzero [[0], [4]] [[0], [4]] 0
    (by decide) (fun u c => by unfold dzero INT_MAX; norm_num)
  rw [h]
  decide

/-- C3: `kmeans` returns `NULL` on every input: for fewer vectors than
clusters via the error path of lines 772-776, and otherwise via the
unconditional `return NULL;` of line 827, which discards the computed
`map`.  No non-null cluster assignment is ever returned. -/
theorem kmeans_always_none (d : List ℤ → List ℤ → ℤ) (vecs : List (List ℤ))
    (num_clusters : ℕ) (mc0 : ℤ) : kmeans d vecs num_clusters mc0 = none := by
  unfold kmeans
  split <;> rfl

/-! ## Helper lemmas about the distance metric -/

theorem sqrt_four : Real.sqrt 4 = 2 := by
  rw [show (4 : ℝ) = 2 ^ 2 by norm_num, Real.sqrt_sq (by norm_num : (0 : ℝ) ≤ 2)]

/-- Closed form of `std_dev` on a two-element sample: the population
standard deviation of `{x, y}` is `|x - y| / 2`. -/
theorem std_dev_pair (x y : ℝ) : std_dev [x, y] 2 = |x - y| / 2 := by
  unfold std_dev
  rw [if_neg (by norm_num)]
  norm_num [List.range_succ]
  rw [show (x - (x + y) / 2) ^ 2 + (y - (x + y) / 2) ^ 2 = 2 * ((x - y) / 2) ^ 2 by ring]
  rw [Real.sqrt_mul (by norm_num : (0 : ℝ) ≤ 2), Real.sqrt_sq_eq_abs]
  rw [mul_div_cancel_left₀ _ (ne_of_gt (Real.sqrt_pos.mpr (by norm_num : (0 : ℝ) < 2)))]
  rw [abs_div]
  norm_num

theorem ned_step_of_ne {x y : ℤ} (h : x ≠ y) : ned_step x y = some 2 := by
  unfold ned_step fdiv
  have hxy : ((x : ℝ) - (y : ℝ)) ≠ 0 := by
    intro h0
    exact h (by exact_mod_cast sub_eq_zero.mp h0)
  have hb : (std_dev [(x : ℝ), (y : ℝ)] 2) ^ 2 = ((x : ℝ) - y) ^ 2 / 4 := by
    rw [std_dev_pair, div_pow, sq_abs]
    norm_num
  have hbne : (std_dev [(x : ℝ), (y : ℝ)] 2) ^ 2 ≠ 0 := by
    rw [hb]
    exact div_ne_zero (pow_ne_zero _ hxy) (by norm_num)
  rw [if_neg hbne, Option.map_some']
  have hnum : (((|x - y| : ℤ) : ℝ)) ^ 2 = ((x : ℝ) - y) ^ 2 := by
    push_cast
    rw [sq_abs]
  rw [hnum, hb, show ((x : ℝ) - y) ^ 2 / (((x : ℝ) - y) ^ 2 / 4) = 4 by
    field_simp]
  rw [sqrt_four]

theorem ned_step_of_eq {x y : ℤ} (h : x = y) : ned_step x y = none := by
  subst h
  unfold ned_step fdiv
  rw [std_dev_pair]
  rw [if_pos (by norm_num)]
  rfl

theorem ned_step_symm (x y : ℤ) : ned_step x y = ned_step y x := by
  by_cases h : x = y
  · rw [ned_step_of_eq h, ned_step_of_eq h.symm]
  · rw [ned_step_of_ne h, ned_step_of_ne (Ne.symm h)]

/-- When the two vectors differ at every one of the first `len`
dimensions, each loop iteration adds exactly 2. -/
theorem ned_loop_all_ne (v1 v2 : List ℤ) (len : ℕ)
    (h : ∀ i, i < len → v1.getD i 0 ≠ v2.getD i 0) :
    ned_loop v1 v2 len = some (2 * (len : ℝ)) := by
  revert h
  induction len with
  | zero => intro _; simp [ned_loop]
  | succ n ih =>
    intro h
    rw [show ned_loop v1 v2 (n + 1) =
        match ned_loop v1 v2 n, ned_step (v1.getD n 0) (v2.getD n 0) with
        | some d, some t => some (d + t)
        | _, _ => none from rfl]
    rw [ih (fun i hi => h i (by omega)), ned_step_of_ne (h n (by omega))]
    push_cast
    norm_num
    ring

/-- Closed form of the spec-modelled two-value population standard
deviation: it coincides with the source's `std_dev` on a pair,
`|x - y| / 2`. -/
theorem stddev_spec_pair (x y : ℝ) : stddev_spec x y = |x - y| / 2 := by
  unfold stddev_spec
  rw [show ((x - (x + y) / 2) ^ 2 + (y - (x + y) / 2) ^ 2) / 2 = ((x - y) / 2) ^ 2 by ring]
  rw [Real.sqrt_sq_eq_abs, abs_div]
  norm_num

/-- On a dimension where the two integer values differ, the spec's
per-dimension contribution is exactly 4. -/
theorem contrib_spec_of_ne (a b : List ℤ) (i : ℕ)
    (h : a.getD i 0 ≠ b.getD i 0) : contrib_spec a b i = 4 := by
  unfold contrib_spec
  have hxy : ((a.getD i 0 : ℝ) - (b.getD i 0 : ℝ)) ≠ 0 := by
    intro h0
    exact h (by exact_mod_cast sub_eq_zero.mp h0)
  have hpow : ((a.getD i 0 : ℝ) - (b.getD i 0 : ℝ)) ^ 2 ≠ 0 := pow_ne_zero 2 hxy
  rw [stddev_spec_pair, div_pow, sq_abs, Int.cast_sub]
  rw [show ((2 : ℝ)) ^ 2 = 4 by norm_num, div_div_eq_mul_div, mul_div_right_comm,
    div_self hpow, one_mul]

theorem sum_map_range_two (f : ℕ → ℝ) (n : ℕ) (h : ∀ i, i < n → f i = 2) :
    ((List.range n).map f).sum = 2 * (n : ℝ) := by
  revert h
  induction n with
  | zero => intro _; simp
  | succ m ih =>
    intro h
    rw [List.range_succ, List.map_append, List.sum_append,
      ih (fun i hi => h i (by omega))]
    simp [h m (by omega)]
    ring

/-! ## Claims about the distance metric -/

/-- C1 (counterexample): on `a = [0,0]`, `b = [2,2]` the code returns
`2 + 2 = 4` (the square root is taken inside the loop, per dimension),
while the spec's formula — one final square root over the summed
contributions `4 + 4` — yields `√8 ≠ 4`. -/
theorem ned_not_sqrt_of_sum :
    n_e_d [0, 0] [2, 2] 2 = some 4 ∧
    distance_spec [0, 0] [2, 2] 2 = Real.sqrt 8 ∧
    Real.sqrt 8 ≠ (4 : ℝ) := by
  refine ⟨?_, ?_, ?_⟩
  · have h := ned_loop_all_ne [0, 0] [2, 2] 2 (by decide)
    rw [show n_e_d [0, 0] [2, 2] 2 = ned_loop [0, 0] [2, 2] 2 from rfl, h]
    norm_num
  · unfold distance_spec
    rw [show List.range 2 = [0, 1] from rfl, List.map_cons, List.map_cons,
      List.map_nil, contrib_spec_of_ne [0, 0] [2, 2] 0 (by decide),
      contrib_spec_of_ne [0, 0] [2, 2] 1 (by decide)]
    norm_num
  · have h8 : Real.sqrt 8 < 4 := by
      calc Real.sqrt 8 < Real.sqrt 16 := Real.sqrt_lt_sqrt (by norm_num) (by norm_num)
        _ = 4 := by
          rw [show (16 : ℝ) = 4 ^ 2 by norm_num, Real.sqrt_sq (by norm_num : (0 : ℝ) ≤ 4)]
    exact ne_of_lt h8

/-- C1 (amended): the per-dimension standard deviation and contribution
are exactly as the spec states them, but the square root is applied to
each dimension's contribution separately and the results are summed —
there is no final square root over the whole sum.  (Stated on vectors
differing in every dimension; on a dimension with equal values the
division by a zero standard deviation makes the result non-finite
instead.) -/
theorem ned_sums_per_dim_sqrt (a b : List ℤ) (hlen : a.length = b.length)
    (h : ∀ i, i < a.length → a.getD i 0 ≠ b.getD i 0) :
    n_e_d a b a.length =
      some (((List.range a.length).map
        (fun i => Real.sqrt (contrib_spec a b i))).sum) := by
  rw [show n_e_d a b a.length = ned_loop a b a.length from rfl,
    ned_loop_all_ne a b a.length h,
    sum_map_range_two _ _
      (fun i hi => by rw [contrib_spec_of_ne a b i (h i hi)]; exact sqrt_four)]

/-- C1 (witness for the amended claim): the theorem applied to the
one-dimensional vectors `[0]` and `[2]`. -/
theorem ned_sums_per_dim_sqrt_witness :
    n_e_d [0] [2] 1 =
      some (((List.range 1).map
        (fun i => Real.sqrt (contrib_spec [0] [2] i))).sum) :=
  ned_sums_per_dim_sqrt [0] [2] rfl (by decide)

/-- C9: the distance is symmetric, but it is NOT reflexive: comparing a
vector with itself makes every per-dimension standard deviation zero, so
the division of line 708 is a division by zero and the result is
non-finite (`none`), not 0 — shown at the concrete vector `[1, 2]`. -/
theorem ned_symm_and_refl_nonfinite :
    (∀ (v1 v2 : List ℤ) (len : ℕ), n_e_d v1 v2 len = n_e_d v2 v1 len) ∧
    n_e_d [1, 2] [1, 2] 2 = none := by
  constructor
  · intro v1 v2 len
    rw [show n_e_d v1 v2 len = ned_loop v1 v2 len from rfl,
      show n_e_d v2 v1 len = ned_loop v2 v1 len from rfl]
    induction len with
    | zero => rfl
    | succ n ih =>
      simp only [ned_loop]
      rw [ih, ned_step_symm (v1.getD n 0) (v2.getD n 0)]
  · rw [show n_e_d [1, 2] [1, 2] 2 = ned_loop [1, 2] [1, 2] 2 from rfl]
    simp only [ned_loop]
    rw [@ned_step_of_eq (([1, 2] : List ℤ).getD 0 0) (([1, 2] : List ℤ).getD 0 0) rfl]

/-- C10: a dimension at which the two vectors differ contributes exactly
2 to the returned value (the population standard deviation of two values
is half their absolute difference, so the quotient is 4 and its square
root 2, independent of the magnitude of the difference); hence on
equal-length vectors differing in every one of their `L` dimensions the
function returns exactly `2 * L`. -/
theorem ned_two_per_differing_dim :
    (∀ x y : ℤ, x ≠ y → n_e_d [x] [y] 1 = some 2) ∧
    (∀ (a b : List ℤ), a.length = b.length →
      (∀ i, i < a.length → a.getD i 0 ≠ b.getD i 0) →
      n_e_d a b a.length = some (2 * (a.length : ℝ))) := by
  constructor
  · intro x y hxy
    have h := ned_loop_all_ne [x] [y] 1 (by
      intro i hi
      have hi0 : i = 0 := by omega
      subst hi0
      simpa using hxy)
    rw [show n_e_d [x] [y] 1 = ned_loop [x] [y] 1 from rfl, h]
    norm_num
  · intro a b _ h
    exact ned_loop_all_ne a b a.length h

/-- C10 (witness): a differing single dimension yields 2; the vectors
`[0, 3]` and `[1, 5]` differ in both dimensions and are at distance
`2 * 2`. -/
theorem ned_two_per_differing_dim_witness :
    n_e_d [0] [1] 1 = some 2 ∧
    n_e_d [0, 3] [1, 5] 2 = some (2 * ((2 : ℕ) : ℝ)) := by
  constructor
  · exact ned_two_per_differing_dim.1 0 1 (by decide)
  · exact ned_two_per_differing_dim.2 [0, 3] [1, 5] rfl (by decide)

end Hbtad
